import Mathlib

/-!
Verification of the `doublecheckem` competition double-check tool.

The program's core is two pure functions in `src/main.py`:

* `format_time(event_id, best)` — renders a raw result value as a display
  string (move count for "333fm", literal value for "333mbf", otherwise
  centiseconds as "M:SS.CC" / "S.CC", with "-" for absent or zero values).

* `find_top_competitors(wcif)` — walks the WCIF document's events and
  persons, and for each accepted person's personal-best entry matching the
  event, appends at most one record: a qualifying record into a mapping
  keyed by event display name, or a borderline record into a flat list.

The shallow embedding below models JSON optional fields with `Option`:
a `pb.get(k, default)` access becomes `Option.getD`, a bare `pb.get(k)`
becomes the `Option` itself (Python `None` = `none`).  The Python value
`float('inf')` used as the default for missing rankings is modelled by
keeping rankings as `Option Int` with `none` standing for plus infinity;
the comparison helpers `oLe` / `leO` implement the Python comparisons
against that extended value.  Python integer `//` and `%` are floor
division and floor modulus, i.e. `Int.fdiv` and `Int.fmod`.
-/

/-- Python `str` applied to an optional integer: `str(None) = "None"`,
`str(n)` is the decimal rendering (with a leading `-` for negatives,
matching Lean's `toString` on `Int`). -/
def pyStr : Option Int → String
  | none => "None"
  | some n => toString n

/-- Python format spec `f"{n:02d}"`: pad the decimal form to width 2 with
leading zeros. Only single-digit nonnegative values actually gain a pad;
everything else already reaches width 2 (negatives carry a sign). -/
def pad2 (n : Int) : String :=
  if 0 ≤ n ∧ n < 10 then "0" ++ toString n else toString n

/-- Embedding of `format_time(event_id, best)` from `src/main.py` lines
24–53.  `best : Option Int` models a possibly-absent integer.  The Python
f-strings are rendered as explicit string concatenation. -/
def format_time (event_id : String) (best : Option Int) : String :=
  if event_id = "333fm" then pyStr best ++ " moves"
  else if event_id = "333mbf" then pyStr best
  else if best = none ∨ best = some 0 then "-"
  else
    -- here `best` is a present, nonzero integer; `cs = int(best)`
    let cs : Int := best.getD 0
    let minutes := cs.fdiv 6000
    let seconds := (cs.fmod 6000).fdiv 100
    let centis := cs.fmod 100
    if minutes > 0 then
      toString minutes ++ ":" ++ pad2 seconds ++ "." ++ pad2 centis
    else
      toString seconds ++ "." ++ pad2 centis

/-- Python comparison `x <= k` where `x` is either an integer (`some v`)
or the missing-ranking default `float('inf')` (`none`): infinity is never
`≤` a finite bound. -/
def oLe (x : Option Int) (k : Int) : Bool :=
  match x with
  | some v => decide (v ≤ k)
  | none => false

/-- Python comparison `k <= x` where `x` may be `float('inf')` (`none`):
every finite bound is `≤` infinity. -/
def leO (k : Int) (x : Option Int) : Bool :=
  match x with
  | some v => decide (k ≤ v)
  | none => true

/-- A `personalBests` entry of a WCIF person.  All fields are produced by
`pb.get(...)` in the source, hence optional. -/
structure PersonalBest where
  eventId : Option String
  type : Option String
  worldRanking : Option Int
  nationalRanking : Option Int
  best : Option Int
deriving Repr, DecidableEq

/-- A person's `registration` object; only its `status` field is read. -/
structure Registration where
  status : Option String
deriving Repr, DecidableEq

/-- A WCIF person.  `registration` and `personalBests` are accessed with
`person.get(...)`, hence optional; a missing `personalBests` defaults to
the empty list at the use site. -/
structure Person where
  name : Option String
  wcaId : Option String
  registration : Option Registration
  personalBests : Option (List PersonalBest)
deriving Repr, DecidableEq

/-- A WCIF event: `event["id"]` is a required key, `event.get("name",
event_id)` makes the display name optional. -/
structure Event where
  id : String
  name : Option String
deriving Repr, DecidableEq

/-- The WCIF document.  `wcif["events"]` and `wcif["persons"]` are direct
subscripts in the source, hence required collections. -/
structure Wcif where
  events : List Event
  persons : List Person
deriving Repr, DecidableEq

/-- A record appended to `results[event_name]` (lines 135–144 of
`src/main.py`), field for field in source order. -/
structure QualRecord where
  event_id : String
  name : String
  wcaId : String
  type : Option String
  ranking_value : Int
  rank_type : String
  qualifier : String
  best : Option Int
deriving Repr, DecidableEq

/-- A record appended to the flat `borderline` list (lines 126–133 of
`src/main.py`), field for field in source order. -/
structure BorderRecord where
  event_id : String
  event_name : String
  name : String
  wcaId : String
  ranking_value : Int
  best : Option Int
deriving Repr, DecidableEq

/-- The classifier's mutable state: the insertion-ordered dict
`results` (modelled as an association list with unique keys) and the flat
`borderline` list. -/
structure CState where
  results : List (String × List QualRecord)
  borderline : List BorderRecord
deriving Repr, DecidableEq

/-- Python `results[event_name] = []`-style assignment on an
insertion-ordered dict: replace in place when the key exists, otherwise
append the new key at the end. -/
def setKey (l : List (String × List QualRecord)) (k : String)
    (v : List QualRecord) : List (String × List QualRecord) :=
  if l.any (fun p => p.1 = k) then
    l.map (fun p => if p.1 = k then (p.1, v) else p)
  else l ++ [(k, v)]

/-- Python `results[event_name].append(r)`: extend the list stored at key
`k`.  In every reachable state the keys are unique, so at most one entry
is touched. -/
def appendAt (l : List (String × List QualRecord)) (k : String)
    (r : QualRecord) : List (String × List QualRecord) :=
  l.map (fun p => if p.1 = k then (p.1, p.2 ++ [r]) else p)

/-- Python `person.get('wcaId') or '[No WCA ID]'`: the placeholder is used
when the field is absent or falsy (the empty string). -/
def pyWcaId (w : Option String) : String :=
  match w with
  | none => "[No WCA ID]"
  | some s => if s = "" then "[No WCA ID]" else s

/-- Embedding of the per-personal-best body of the loop in
`find_top_competitors` (lines 85–144 of `src/main.py`).  The source sets
`rank_type` / `ranking_value` / `qualifier` in an if/elif chain and then
performs a single append when `qualifier` is set; here each branch carries
its append directly, which is the same state transformation.  `int(...)`
is applied only in branches where the ranking is finite, so it is
`Option.getD 0` on a `some` value. -/
def processPB (event_id event_name name wcaId : String) (pb : PersonalBest)
    (st : CState) : CState :=
  if pb.eventId ≠ some event_id then st
  else
    let wr := pb.worldRanking
    let nr := pb.nationalRanking
    let best := pb.best.getD 0
    if best = 0 ∨ wr = some 0 ∨ nr = some 0 then st
    else
      let wrRec : QualRecord :=
        ⟨event_id, name, wcaId, pb.type, wr.getD 0, "World", "WR", pb.best⟩
      let nrRec : Int → QualRecord := fun v =>
        ⟨event_id, name, wcaId, pb.type, v, "National", "NR", pb.best⟩
      let bRec : BorderRecord :=
        ⟨event_id, event_name, name, wcaId, wr.getD 0, pb.best⟩
      if pb.type = some "single" then
        if oLe wr 100 && oLe nr 30 then
          { st with results := appendAt st.results event_name wrRec }
        else if oLe wr 100 then
          { st with results := appendAt st.results event_name wrRec }
        else if oLe nr 30 then
          { st with results := appendAt st.results event_name (nrRec (nr.getD 0)) }
        else st
      else if pb.type = some "average" then
        if oLe wr 50 && oLe nr 15 then
          { st with results := appendAt st.results event_name wrRec }
        else if oLe wr 50 then
          { st with results := appendAt st.results event_name wrRec }
        else if oLe nr 15 then
          { st with results := appendAt st.results event_name (nrRec (nr.getD 0)) }
        else if leO 51 wr && oLe wr 100 then
          { st with borderline := st.borderline ++ [bRec] }
        else st
      else st

/-- Embedding of the per-person body of the loop (lines 79–144): skip
persons without an accepted registration, compute the display name and
WCA-id, then fold over the (possibly missing) personal bests. -/
def processPerson (event_id event_name : String) (person : Person)
    (st : CState) : CState :=
  match person.registration with
  | none => st
  | some reg =>
    if reg.status ≠ some "accepted" then st
    else
      let name := person.name.getD "[No Name]"
      let wcaId := pyWcaId person.wcaId
      (person.personalBests.getD []).foldl
        (fun s pb => processPB event_id event_name name wcaId pb s) st

/-- Embedding of the per-event body of the loop (lines 75–144): install an
empty list under the event's display name, then fold over the persons. -/
def processEvent (persons : List Person) (st : CState) (event : Event) :
    CState :=
  let event_id := event.id
  let event_name := event.name.getD event_id
  let st1 : CState := { st with results := setKey st.results event_name [] }
  persons.foldl (fun s p => processPerson event_id event_name p s) st1

/-- Embedding of `find_top_competitors(wcif)` (lines 55–145): fold the
event loop over an initially empty state. -/
def find_top_competitors (wcif : Wcif) : CState :=
  wcif.events.foldl (processEvent wcif.persons) ⟨[], []⟩

/-- C8: for any event other than "333fm" and "333mbf" and any present
nonzero raw value, `format_time` renders the value as centiseconds with
minutes = value div 6000, seconds = (value mod 6000) div 100, hundredths
= value mod 100 (floor division/modulus, as in Python), formatted
"M:SS.CC" when minutes > 0 and "S.CC" with unpadded seconds otherwise;
in particular `format_time "333" 7265 = "1:12.65"` and
`format_time "333" 950 = "9.50"`. -/
theorem format_time_centiseconds (event_id : String) (v : Int)
    (hfm : event_id ≠ "333fm") (hmbf : event_id ≠ "333mbf") (hv : v ≠ 0) :
    format_time event_id (some v) =
      (if v.fdiv 6000 > 0 then
        toString (v.fdiv 6000) ++ ":" ++ pad2 ((v.fmod 6000).fdiv 100) ++
          "." ++ pad2 (v.fmod 100)
      else
        toString ((v.fmod 6000).fdiv 100) ++ "." ++ pad2 (v.fmod 100)) ∧
    format_time "333" (some 7265) = "1:12.65" ∧
    format_time "333" (some 950) = "9.50" := by
  refine ⟨?_, by rfl, by rfl⟩
  have h3 : ¬((some v : Option Int) = none ∨ (some v : Option Int) = some 0) := by
    simp [hv]
  unfold format_time
  rw [if_neg hfm, if_neg hmbf, if_neg h3]
  simp only [Option.getD_some]

/-- Witness for `format_time_centiseconds` at event "444", value 7265. -/
theorem format_time_centiseconds_witness :
    format_time "444" (some 7265) =
      (if (7265 : Int).fdiv 6000 > 0 then
        toString ((7265 : Int).fdiv 6000) ++ ":" ++
          pad2 (((7265 : Int).fmod 6000).fdiv 100) ++ "." ++
          pad2 ((7265 : Int).fmod 100)
      else
        toString (((7265 : Int).fmod 6000).fdiv 100) ++ "." ++
          pad2 ((7265 : Int).fmod 100)) ∧
    format_time "333" (some 7265) = "1:12.65" ∧
    format_time "333" (some 950) = "9.50" :=
  format_time_centiseconds "444" 7265 (by decide) (by decide) (by decide)

/-- C9: `format_time` checks its rules in order: event "333fm" always
yields "<raw> moves" with the Python literal rendering (so "None moves"
when absent, "0 moves" overriding the zero rule); else event "333mbf"
yields the literal rendering unconverted (also for absent and zero);
else an absent or zero raw value yields "-". -/
theorem format_time_rule_order :
    (∀ best : Option Int, format_time "333fm" best = pyStr best ++ " moves") ∧
    (∀ best : Option Int, format_time "333mbf" best = pyStr best) ∧
    (∀ event_id : String, event_id ≠ "333fm" → event_id ≠ "333mbf" →
      format_time event_id none = "-" ∧ format_time event_id (some 0) = "-") ∧
    format_time "333fm" none = "None moves" ∧
    format_time "333fm" (some 0) = "0 moves" ∧
    format_time "333mbf" none = "None" ∧
    format_time "333mbf" (some 0) = "0" := by
  refine ⟨fun best => by rfl, fun best => by rfl, ?_, by rfl, by rfl, by rfl, by rfl⟩
  intro event_id hfm hmbf
  constructor
  · unfold format_time
    rw [if_neg hfm, if_neg hmbf, if_pos (Or.inl rfl)]
  · unfold format_time
    rw [if_neg hfm, if_neg hmbf, if_pos (Or.inr rfl)]

/-- Witness for `format_time_rule_order`: instantiate the third conjunct
at the concrete event "333". -/
theorem format_time_rule_order_witness :
    format_time "333" none = "-" ∧ format_time "333" (some 0) = "-" :=
  format_time_rule_order.2.2.1 "333" (by decide) (by decide)

/-- C4: an entry with raw result 0 (or absent, defaulting to 0), world
ranking equal to 0, or national ranking equal to 0 is skipped: the
processing of that entry leaves both output structures unchanged. -/
theorem zero_sentinel_skip (event_id event_name name wcaId : String)
    (pb : PersonalBest) (st : CState)
    (h : pb.best.getD 0 = 0 ∨ pb.worldRanking = some 0 ∨
      pb.nationalRanking = some 0) :
    processPB event_id event_name name wcaId pb st = st := by
  unfold processPB
  split
  · rfl
  · simp [h]

/-- Witness for `zero_sentinel_skip`: a matching "single" entry with
world ranking 0 contributes nothing. -/
theorem zero_sentinel_skip_witness :
    processPB "333" "3x3" "Ann" "2019AAAA01"
        ⟨some "333", some "single", some 0, some 1, some 4242⟩
        ⟨[("3x3", [])], []⟩ =
      ⟨[("3x3", [])], []⟩ :=
  zero_sentinel_skip "333" "3x3" "Ann" "2019AAAA01" _ _ (Or.inr (Or.inl rfl))

/-- C1: a "single" entry on an accepted person, matching the event and
passing the zero-sentinel skip, whose world ranking is ≤ 100, yields a
qualifying record with rank scope "World", qualifier "WR" and ranking
value equal to the world ranking — whatever the national ranking is
(both the `wr ≤ 100 and nr ≤ 30` branch and the bare `wr ≤ 100` branch
of the source produce this same record). -/
theorem single_world_top100_qualifies_WR
    (event_id event_name name wcaId : String) (pb : PersonalBest)
    (st : CState) (w : Int)
    (heid : pb.eventId = some event_id)
    (htype : pb.type = some "single")
    (hwr : pb.worldRanking = some w)
    (hw100 : w ≤ 100) (hw0 : w ≠ 0)
    (hbest : pb.best.getD 0 ≠ 0)
    (hnr0 : pb.nationalRanking ≠ some 0) :
    processPB event_id event_name name wcaId pb st =
      ⟨appendAt st.results event_name
        ⟨event_id, name, wcaId, some "single", w, "World", "WR", pb.best⟩,
       st.borderline⟩ := by
  unfold processPB
  rw [if_neg (by simp [heid])]
  rw [if_neg (by simp [hbest, hwr, hw0, hnr0])]
  rw [if_pos htype]
  by_cases hnr : oLe pb.nationalRanking 30 = true
  · rw [if_pos (by rw [Bool.and_eq_true]; exact ⟨by simp [oLe, hwr, hw100], hnr⟩)]
    simp [hwr, htype]
  · rw [if_neg (by rw [Bool.and_eq_true]; exact fun hc => hnr hc.2),
      if_pos (by simp [oLe, hwr, hw100])]
    simp [hwr, htype]

/-- Witness for `single_world_top100_qualifies_WR`: world ranking 7 with
national ranking 999 (far above 30) still qualifies World/"WR". -/
theorem single_world_top100_qualifies_WR_witness :
    processPB "333" "3x3" "Ann" "2019AAAA01"
        ⟨some "333", some "single", some 7, some 999, some 4242⟩
        ⟨[("3x3", [])], []⟩ =
      ⟨appendAt [("3x3", [])] "3x3"
        ⟨"333", "Ann", "2019AAAA01", some "single", 7, "World", "WR", some 4242⟩,
       []⟩ :=
  single_world_top100_qualifies_WR "333" "3x3" "Ann" "2019AAAA01" _ _ 7
    rfl rfl rfl (by decide) (by decide) (by decide) (by decide)

/-- C2 counterexample: the national-only branch for "single" IS
reachable.  A matching "single" entry with world ranking 101 and national
ranking 5 produces a qualifying National/"NR" record, contradicting the
claim that such an entry produces no classification at all. -/
theorem national_single_reachable_counterexample :
    processPB "333" "3x3" "Ann" "2019AAAA01"
        ⟨some "333", some "single", some 101, some 5, some 1234⟩
        ⟨[("3x3", [])], []⟩ =
      ⟨[("3x3", [⟨"333", "Ann", "2019AAAA01", some "single", 5, "National",
          "NR", some 1234⟩])], []⟩ := by
  rfl

/-- C2 amended: a "single" entry matching the event and passing the
zero-sentinel skip, whose world ranking is NOT ≤ 100 (greater than 100 or
absent) and whose national ranking is ≤ 30, yields a qualifying record
with rank scope "National", qualifier "NR" and ranking value equal to the
national ranking; nothing is added to the borderline list. -/
theorem single_national_top30_qualifies_NR
    (event_id event_name name wcaId : String) (pb : PersonalBest)
    (st : CState) (n : Int)
    (heid : pb.eventId = some event_id)
    (htype : pb.type = some "single")
    (hwr : oLe pb.worldRanking 100 = false)
    (hnr : pb.nationalRanking = some n)
    (hn30 : n ≤ 30) (hn0 : n ≠ 0)
    (hbest : pb.best.getD 0 ≠ 0) :
    processPB event_id event_name name wcaId pb st =
      ⟨appendAt st.results event_name
        ⟨event_id, name, wcaId, some "single", n, "National", "NR", pb.best⟩,
       st.borderline⟩ := by
  have hw0 : pb.worldRanking ≠ some 0 := by
    intro h
    rw [h] at hwr
    simp [oLe] at hwr
  unfold processPB
  rw [if_neg (by simp [heid])]
  rw [if_neg (by simp [hbest, hw0, hnr, hn0])]
  rw [if_pos htype]
  rw [if_neg (by simp [hwr]), if_neg (by simp [hwr])]
  rw [if_pos (by simp [oLe, hnr, hn30])]
  simp [hnr, htype]

/-- Witness for `single_national_top30_qualifies_NR`: the
counterexample's input, discharged through the amended theorem. -/
theorem single_national_top30_qualifies_NR_witness :
    processPB "333" "3x3" "Ann" "2019AAAA01"
        ⟨some "333", some "single", some 101, some 5, some 1234⟩
        ⟨[("3x3", [])], []⟩ =
      ⟨appendAt [("3x3", [])] "3x3"
        ⟨"333", "Ann", "2019AAAA01", some "single", 5, "National", "NR",
          some 1234⟩,
       []⟩ :=
  single_national_top30_qualifies_NR "333" "3x3" "Ann" "2019AAAA01" _ _ 5
    rfl rfl (by decide) rfl (by decide) (by decide) (by decide)

/-- C3: an "average" entry matching the event and passing the
zero-sentinel skip, with world ranking in [51, 100] and national ranking
not ≤ 15 (greater than 15 or absent), appends exactly one record to the
flat borderline list — carrying event id, event name, person name,
person ID, the world ranking as an integer, and the raw result — and
appends nothing to the qualifying results. -/
theorem average_borderline_51_100
    (event_id event_name name wcaId : String) (pb : PersonalBest)
    (st : CState) (w : Int)
    (heid : pb.eventId = some event_id)
    (htype : pb.type = some "average")
    (hwr : pb.worldRanking = some w)
    (hw51 : 51 ≤ w) (hw100 : w ≤ 100)
    (hnr : oLe pb.nationalRanking 15 = false)
    (hbest : pb.best.getD 0 ≠ 0) :
    processPB event_id event_name name wcaId pb st =
      ⟨st.results,
       st.borderline ++ [⟨event_id, event_name, name, wcaId, w, pb.best⟩]⟩ := by
  have hn0 : pb.nationalRanking ≠ some 0 := by
    intro h
    rw [h] at hnr
    simp [oLe] at hnr
  have hw0 : w ≠ 0 := by omega
  have hw50 : oLe pb.worldRanking 50 = false := by
    rw [hwr]
    simp [oLe]
    omega
  unfold processPB
  rw [if_neg (by simp [heid])]
  rw [if_neg (by simp [hbest, hwr, hw0, hn0])]
  rw [if_neg (by simp [htype]), if_pos htype]
  rw [if_neg (by simp [hw50]), if_neg (by simp [hw50]), if_neg (by simp [hnr])]
  rw [if_pos (by simp [oLe, leO, hwr, hw51, hw100])]
  simp [hwr]

/-- Witness for `average_borderline_51_100`: world ranking 77, national
ranking 40. -/
theorem average_borderline_51_100_witness :
    processPB "222" "2x2" "Bo" "2018BBBB02"
        ⟨some "222", some "average", some 77, some 40, some 555⟩
        ⟨[("2x2", [])], []⟩ =
      ⟨[("2x2", [])],
       [] ++ [⟨"222", "2x2", "Bo", "2018BBBB02", 77, some 555⟩]⟩ :=
  average_borderline_51_100 "222" "2x2" "Bo" "2018BBBB02" _ _ 77
    rfl rfl rfl (by decide) (by decide) (by decide) (by decide)

/-- `appendAt` never changes the key sequence of the association list. -/
theorem appendAt_fst (l : List (String × List QualRecord)) (k : String)
    (r : QualRecord) : (appendAt l k r).map Prod.fst = l.map Prod.fst := by
  unfold appendAt
  rw [List.map_map]
  apply List.map_congr_left
  intro p _
  by_cases h : p.1 = k <;> simp [h]

/-- The key sequence after a Python dict assignment: unchanged when the
key was present, extended by the key at the end otherwise. -/
theorem setKey_fst (l : List (String × List QualRecord)) (k : String)
    (v : List QualRecord) :
    (setKey l k v).map Prod.fst =
      if l.any (fun p => p.1 = k) then l.map Prod.fst
      else l.map Prod.fst ++ [k] := by
  unfold setKey
  split
  · next h =>
    rw [List.map_map]
    apply List.map_congr_left
    intro p _
    by_cases hp : p.1 = k <;> simp [hp]
  · next h =>
    simp

/-- A fold whose step preserves the key sequence preserves it overall. -/
theorem foldl_results_fst {α : Type} (f : CState → α → CState)
    (hf : ∀ s a, (f s a).results.map Prod.fst = s.results.map Prod.fst)
    (l : List α) (st : CState) :
    (l.foldl f st).results.map Prod.fst = st.results.map Prod.fst := by
  induction l generalizing st with
  | nil => rfl
  | cons a t ih => rw [List.foldl_cons, ih, hf]

/-- Processing one personal best never changes the key sequence of the
qualifying-results mapping. -/
theorem processPB_results_fst (event_id event_name name wcaId : String)
    (pb : PersonalBest) (st : CState) :
    (processPB event_id event_name name wcaId pb st).results.map Prod.fst =
      st.results.map Prod.fst := by
  simp only [processPB]
  repeat' split
  all_goals simp [appendAt_fst]

/-- Processing one person never changes the key sequence of the
qualifying-results mapping. -/
theorem processPerson_results_fst (event_id event_name : String)
    (person : Person) (st : CState) :
    (processPerson event_id event_name person st).results.map Prod.fst =
      st.results.map Prod.fst := by
  unfold processPerson
  split
  · rfl
  · split
    · rfl
    · exact foldl_results_fst
        (fun s pb => processPB event_id event_name (person.name.getD "[No Name]")
          (pyWcaId person.wcaId) pb s)
        (fun s pb => processPB_results_fst event_id event_name
          (person.name.getD "[No Name]") (pyWcaId person.wcaId) pb s)
        (person.personalBests.getD []) st

/-- Processing one event turns the key sequence into that of the initial
`results[event_name] = []` assignment. -/
theorem processEvent_results_fst (persons : List Person) (st : CState)
    (e : Event) :
    (processEvent persons st e).results.map Prod.fst =
      (setKey st.results (e.name.getD e.id) []).map Prod.fst := by
  unfold processEvent
  exact foldl_results_fst _
    (fun s p => processPerson_results_fst _ _ p s) persons _

/-- A Python dict assignment makes its key present. -/
theorem mem_setKey_fst_self (l : List (String × List QualRecord))
    (k : String) (v : List QualRecord) :
    k ∈ (setKey l k v).map Prod.fst := by
  rw [setKey_fst]
  split
  · next h =>
    rw [List.any_eq_true] at h
    obtain ⟨p, hp, he⟩ := h
    exact List.mem_map.mpr ⟨p, hp, by simpa using he⟩
  · simp

/-- A Python dict assignment keeps every existing key present. -/
theorem mem_setKey_fst_mono (l : List (String × List QualRecord))
    (k : String) (v : List QualRecord) (x : String)
    (hx : x ∈ l.map Prod.fst) : x ∈ (setKey l k v).map Prod.fst := by
  rw [setKey_fst]
  split
  · exact hx
  · exact List.mem_append_left _ hx

/-- A Python dict assignment preserves distinctness of the keys. -/
theorem setKey_fst_nodup (l : List (String × List QualRecord))
    (k : String) (v : List QualRecord)
    (h : (l.map Prod.fst).Nodup) :
    ((setKey l k v).map Prod.fst).Nodup := by
  rw [setKey_fst]
  split
  · exact h
  · next hany =>
    rw [List.nodup_append]
    refine ⟨h, List.nodup_singleton k, ?_⟩
    intro x hx hxk
    rw [Bool.not_eq_true, List.any_eq_false] at hany
    obtain ⟨p, hp, hpx⟩ := List.mem_map.mp hx
    have hk : x = k := by simp at hxk; exact hxk
    refine absurd ?_ (hany p hp)
    simp [hpx, hk]

/-- Every existing key is still a key after folding the event loop. -/
theorem foldl_events_keys_mono (persons : List Person)
    (events : List Event) (st : CState) (x : String)
    (hx : x ∈ st.results.map Prod.fst) :
    x ∈ ((events.foldl (processEvent persons) st).results.map Prod.fst) := by
  induction events generalizing st with
  | nil => exact hx
  | cons e t ih =>
    rw [List.foldl_cons]
    apply ih
    rw [processEvent_results_fst]
    exact mem_setKey_fst_mono _ _ _ _ hx

/-- Folding the event loop makes every listed event's display name a key
of the qualifying-results mapping. -/
theorem foldl_events_key_mem (persons : List Person)
    (events : List Event) (st : CState) (e : Event) (he : e ∈ events) :
    (e.name.getD e.id) ∈
      ((events.foldl (processEvent persons) st).results.map Prod.fst) := by
  induction he generalizing st with
  | head t =>
    rw [List.foldl_cons]
    apply foldl_events_keys_mono
    rw [processEvent_results_fst]
    exact mem_setKey_fst_self _ _ _
  | tail a hmem ih =>
    rw [List.foldl_cons]
    exact ih _

/-- Folding the event loop preserves distinctness of the keys. -/
theorem foldl_events_nodup (persons : List Person) (events : List Event)
    (st : CState) (h : (st.results.map Prod.fst).Nodup) :
    ((events.foldl (processEvent persons) st).results.map Prod.fst).Nodup := by
  induction events generalizing st with
  | nil => exact h
  | cons e t ih =>
    rw [List.foldl_cons]
    apply ih
    rw [processEvent_results_fst]
    exact setKey_fst_nodup _ _ _ h

/-- C5: each personal-best entry yields at most one classification — the
state is unchanged, or exactly one qualifying record is appended under
the event's key, or exactly one borderline record is appended — never
both; and in the classifier's output the result-mapping keys are
distinct, so a single qualifying append lands in exactly one entry. -/
theorem at_most_one_classification :
    (∀ (event_id event_name name wcaId : String) (pb : PersonalBest)
       (st : CState),
      processPB event_id event_name name wcaId pb st = st ∨
      (∃ r : QualRecord, processPB event_id event_name name wcaId pb st =
        ⟨appendAt st.results event_name r, st.borderline⟩) ∨
      (∃ b : BorderRecord, processPB event_id event_name name wcaId pb st =
        ⟨st.results, st.borderline ++ [b]⟩)) ∧
    (∀ w : Wcif, ((find_top_competitors w).results.map Prod.fst).Nodup) := by
  constructor
  · intro event_id event_name name wcaId pb st
    simp only [processPB]
    repeat' split
    all_goals first
      | exact Or.inl rfl
      | exact Or.inr (Or.inl ⟨_, rfl⟩)
      | exact Or.inr (Or.inr ⟨_, rfl⟩)
  · intro w
    exact foldl_events_nodup w.persons w.events ⟨[], []⟩ (by simp)

/-- The one-event document used to settle C6. -/
def wcifNamed : Wcif := ⟨[⟨"333", some "3x3x3 Cube"⟩], []⟩

/-- C6 counterexample: on a document whose single event has identifier
"333" and display name "3x3x3 Cube", the qualifying-results mapping is
keyed by the display name, and the identifier "333" is NOT among its
keys — refuting the claim that every event identifier appears as a key. -/
theorem event_id_key_counterexample :
    (find_top_competitors wcifNamed).results = [("3x3x3 Cube", [])] ∧
    ¬ ("333" ∈ (find_top_competitors wcifNamed).results.map Prod.fst) := by
  constructor
  · rfl
  · decide

/-- C6 amended: for every document, every event's display name — its
`name` field, falling back to its identifier when the name is absent —
appears as a key of the qualifying-results mapping returned by the
classifier, even when the associated list is empty. -/
theorem event_display_name_is_key (w : Wcif) (e : Event)
    (he : e ∈ w.events) :
    (e.name.getD e.id) ∈ ((find_top_competitors w).results.map Prod.fst) :=
  foldl_events_key_mem w.persons w.events ⟨[], []⟩ e he

/-- Witness for `event_display_name_is_key` on the one-event document. -/
theorem event_display_name_is_key_witness :
    "3x3x3 Cube" ∈ ((find_top_competitors wcifNamed).results.map Prod.fst) :=
  event_display_name_is_key wcifNamed ⟨"333", some "3x3x3 Cube"⟩ (by decide)

/-- C7: the classifier is a total function, and each documented default
for a missing optional field is honoured: a missing event name falls
back to the identifier; a missing registration skips the person; missing
personal bests contribute nothing; a missing person name behaves as the
placeholder "[No Name]"; a missing wcaId behaves as the placeholder
"[No WCA ID]"; a missing ranking is treated as unbounded (never ≤ any
finite threshold); a missing best is treated as 0 and skipped. -/
theorem classifier_total_defaults :
    (∀ (persons : List Person) (st : CState) (id : String),
      processEvent persons st ⟨id, none⟩ =
        processEvent persons st ⟨id, some id⟩) ∧
    (∀ (event_id event_name : String) (nm wid : Option String)
       (pbs : Option (List PersonalBest)) (st : CState),
      processPerson event_id event_name ⟨nm, wid, none, pbs⟩ st = st) ∧
    (∀ (event_id event_name : String) (nm wid : Option String) (st : CState),
      processPerson event_id event_name
        ⟨nm, wid, some ⟨some "accepted"⟩, none⟩ st = st) ∧
    (∀ (event_id event_name : String) (wid : Option String)
       (pbs : Option (List PersonalBest)) (st : CState),
      processPerson event_id event_name
          ⟨none, wid, some ⟨some "accepted"⟩, pbs⟩ st =
        processPerson event_id event_name
          ⟨some "[No Name]", wid, some ⟨some "accepted"⟩, pbs⟩ st) ∧
    (∀ (event_id event_name : String) (nm : Option String)
       (pbs : Option (List PersonalBest)) (st : CState),
      processPerson event_id event_name
          ⟨nm, none, some ⟨some "accepted"⟩, pbs⟩ st =
        processPerson event_id event_name
          ⟨nm, some "[No WCA ID]", some ⟨some "accepted"⟩, pbs⟩ st) ∧
    (∀ k : Int, oLe none k = false) ∧
    (∀ (event_id event_name name wcaId : String) (e t : Option String)
       (wr nr : Option Int) (st : CState),
      processPB event_id event_name name wcaId ⟨e, t, wr, nr, none⟩ st = st) := by
  refine ⟨fun persons st id => rfl, fun _ _ _ _ _ _ => rfl,
    fun _ _ _ _ _ => rfl, fun _ _ _ _ _ => rfl, fun _ _ _ _ _ => rfl,
    fun k => rfl, ?_⟩
  intro event_id event_name name wcaId e t wr nr st
  unfold processPB
  split
  · rfl
  · simp

/-- C10: a person whose wcaId is present but empty is treated exactly
like a person with no wcaId at all: the placeholder "[No WCA ID]" is
used, and person processing is identical in the two cases, so every
produced classification carries the placeholder. -/
theorem empty_wcaId_placeholder :
    pyWcaId (some "") = "[No WCA ID]" ∧
    pyWcaId (some "") = pyWcaId none ∧
    (∀ (event_id event_name : String) (nm : Option String)
       (reg : Option Registration) (pbs : Option (List PersonalBest))
       (st : CState),
      processPerson event_id event_name ⟨nm, some "", reg, pbs⟩ st =
        processPerson event_id event_name ⟨nm, none, reg, pbs⟩ st) := by
  refine ⟨rfl, rfl, ?_⟩
  intro event_id event_name nm reg pbs st
  cases reg with
  | none => rfl
  | some r => rfl
